import Mathlib

/-!
Shallow embedding of `isuexporter.go` (package `isuexporter`): a file-backed
OpenTelemetry span exporter.  Pure Go functions become Lean functions; the
process state (the filesystem and the table of open file handles) is threaded
explicitly.  Machine integers do not overflow in this code path, so times are
modelled as `Int` nanosecond counts.
-/

set_option maxHeartbeats 1000000


/-- Decimal digit character for a digit value below ten. -/
def digitChar (d : Nat) : Char := Char.ofNat (48 + d)

/-- Inverse of `digitChar` on decimal digit characters. -/
def digitVal (c : Char) : Option Nat :=
  if 48 ≤ c.toNat && c.toNat ≤ 57 then some (c.toNat - 48) else none

/-- Little-endian base-10 digits of `n`, with explicit fuel so that the
recursion is structural. -/
def natDigitsRev (fuel : Nat) (n : Nat) : List Nat :=
  match fuel with
  | 0 => []
  | fuel' + 1 => if n < 10 then [n] else n % 10 :: natDigitsRev fuel' (n / 10)

/-- Value of a little-endian base-10 digit list. -/
def ofDigitsL : List Nat → Nat
  | [] => 0
  | d :: ds => d + 10 * ofDigitsL ds

theorem ofDigitsL_natDigitsRev (fuel n : Nat) (h : n < fuel) :
    ofDigitsL (natDigitsRev fuel n) = n := by
  induction fuel generalizing n with
  | zero => omega
  | succ fuel ih =>
    unfold natDigitsRev
    by_cases h10 : n < 10
    · simp [h10, ofDigitsL]
    · have hdiv : n / 10 < fuel := by
        have : n / 10 < n := Nat.div_lt_self (by omega) (by omega)
        omega
      simp only [h10, if_false, ofDigitsL, ih _ hdiv]
      omega

theorem natDigitsRev_digits_lt (fuel n : Nat) :
    ∀ d ∈ natDigitsRev fuel n, d < 10 := by
  induction fuel generalizing n with
  | zero => intro d hd; simp [natDigitsRev] at hd
  | succ fuel ih =>
    intro d hd
    unfold natDigitsRev at hd
    by_cases h10 : n < 10
    · simp [h10] at hd; omega
    · simp only [h10, if_false, List.mem_cons] at hd
      rcases hd with h | h
      · omega
      · exact ih _ d h

/-- Big-endian decimal character rendering of a natural number. -/
def natStr (n : Nat) : String :=
  String.mk (((natDigitsRev (n + 1) n).reverse).map digitChar)

/-- Parse a big-endian digit character list back into a natural number. -/
def parseNatChars (cs : List Char) : Option Nat :=
  match cs with
  | [] => none
  | _ =>
    let vals := cs.map digitVal
    if vals.all Option.isSome then
      some (ofDigitsL ((vals.map (Option.getD · 0)).reverse))
    else
      none

theorem digitVal_digitChar (d : Nat) (h : d < 10) : digitVal (digitChar d) = some d := by
  interval_cases d <;> rfl

theorem natDigitsRev_ne_nil (fuel n : Nat) (h : 0 < fuel) : natDigitsRev fuel n ≠ [] := by
  cases fuel with
  | zero => omega
  | succ fuel =>
    unfold natDigitsRev
    by_cases h10 : n < 10 <;> simp [h10]

theorem parseNatChars_natStr (n : Nat) : parseNatChars (natStr n).data = some n := by
  have hne : natDigitsRev (n + 1) n ≠ [] := natDigitsRev_ne_nil _ _ (by omega)
  have hlt := natDigitsRev_digits_lt (n + 1) n
  unfold natStr parseNatChars
  simp only [String.data]
  have hcs : (((natDigitsRev (n + 1) n).reverse).map digitChar) ≠ [] := by
    simp [hne]
  match hm : ((natDigitsRev (n + 1) n).reverse).map digitChar, hcs with
  | c :: cs, _ =>
    simp only []
    rw [← hm]
    have hmapmap : (((natDigitsRev (n + 1) n).reverse).map digitChar).map digitVal
        = ((natDigitsRev (n + 1) n).reverse).map (fun d => some d) := by
      rw [List.map_map]
      apply List.map_congr_left
      intro d hd
      have : d < 10 := hlt d (List.mem_reverse.mp hd)
      exact digitVal_digitChar d this
    rw [hmapmap]
    have hall : (((natDigitsRev (n + 1) n).reverse).map (fun d => some d)).all Option.isSome := by
      simp [List.all_eq_true]
    rw [if_pos hall]
    congr 1
    rw [List.map_map]
    have : ((natDigitsRev (n + 1) n).reverse).map ((fun o => Option.getD o 0) ∘ (fun d => some d))
        = (natDigitsRev (n + 1) n).reverse := by
      simp [Function.comp_def]
    rw [this, List.reverse_reverse]
    exact ofDigitsL_natDigitsRev _ _ (by omega)

/-- Textual encoding of an instant.  Models the SDK-native (`time.Time`)
JSON rendering of a timestamp: an injective textual encoding of the
instant, here the signed decimal count of nanoseconds. -/
def timeFormat (t : Int) : String :=
  if (t : Int) < 0 then "-" ++ natStr (t : Int).natAbs else natStr (t : Int).toNat

/-- Parse the textual timestamp encoding back into an instant. -/
def timeParse (s : String) : Option Int :=
  match s.data with
  | [] => none
  | c :: cs =>
    if c = '-' then
      match parseNatChars cs with
      | some n => some (-(n : Int))
      | none => none
    else
      match parseNatChars (c :: cs) with
      | some n => some ((n : Int))
      | none => none

theorem natStr_data_ne_nil (n : Nat) : (natStr n).data ≠ [] := by
  unfold natStr
  simp [natDigitsRev_ne_nil (n + 1) n (by omega)]

theorem natStr_no_minus (n : Nat) : ∀ c ∈ (natStr n).data, c ≠ '-' := by
  intro c hc
  unfold natStr at hc
  simp only [String.data] at hc
  rw [List.mem_map] at hc
  obtain ⟨d, hd, hcd⟩ := hc
  have hd10 : d < 10 := natDigitsRev_digits_lt _ _ d (List.mem_reverse.mp hd)
  subst hcd
  interval_cases d <;> decide

theorem timeParse_timeFormat (t : Int) : timeParse (timeFormat t) = some t := by
  by_cases ht : t < 0
  · simp only [timeFormat, ht, if_true, timeParse, String.data_append]
    simp only [List.cons_append, List.nil_append, if_pos rfl]
    rw [parseNatChars_natStr]
    show some (-((Int.natAbs t : Nat) : Int)) = some t
    simp only [Option.some.injEq]
    omega
  · simp only [timeFormat, ht, if_false, timeParse]
    cases hdata : (natStr t.toNat).data with
    | nil => exact absurd hdata (natStr_data_ne_nil _)
    | cons c cs =>
      have hc : c ≠ '-' := natStr_no_minus t.toNat c (by rw [hdata]; exact List.mem_cons_self c cs)
      simp only [hc, if_false]
      rw [← hdata, parseNatChars_natStr]
      show some ((Int.toNat t : Nat) : Int) = some t
      simp only [Option.some.injEq]
      omega

/-- The JSON documents produced by `encoding/json` for the values this
repository marshals (strings, integers, booleans, arrays, objects). -/
inductive Json where
  | str (s : String)
  | num (n : Int)
  | bool (b : Bool)
  | arr (elems : List Json)
  | obj (fields : List (String × Json))

/-- Hexadecimal digit character. -/
def hexChar (n : Nat) : Char :=
  if n < 10 then digitChar n
  else if n = 10 then 'a' else if n = 11 then 'b' else if n = 12 then 'c'
  else if n = 13 then 'd' else if n = 14 then 'e' else 'f'

/-- Per-character JSON string escaping as performed by `encoding/json`'s
HTML-escaping string encoder (quotes, backslashes, control characters,
`<`, `>`, `&`, U+2028 and U+2029). -/
def escapeChar (c : Char) : String :=
  if c = '"' then "\\\""
  else if c = '\\' then "\\\\"
  else if c = '\n' then "\\n"
  else if c = '\r' then "\\r"
  else if c = '\t' then "\\t"
  else if c = '<' then "\\u003c"
  else if c = '>' then "\\u003e"
  else if c = '&' then "\\u0026"
  else if c.toNat < 32 then "\\u00" ++ String.mk [hexChar (c.toNat / 16), hexChar (c.toNat % 16)]
  else if c.toNat = 8232 then "\\u2028"
  else if c.toNat = 8233 then "\\u2029"
  else String.mk [c]

/-- JSON string literal rendering (quote and escape). -/
def quoteStr (s : String) : String :=
  "\"" ++ String.join (s.data.map escapeChar) ++ "\""

/-- Decimal rendering of an integer, as `encoding/json` renders `int64`. -/
def intStr (n : Int) : String := timeFormat n

/-- `n` copies of the two-space indentation unit used by
`json.MarshalIndent(v, "", "  ")`. -/
def indentStr (n : Nat) : String := String.join (List.replicate n "  ")

/-- Pretty-printer for `Json` mirroring `json.MarshalIndent(v, "", "  ")`:
nested elements are placed on their own lines, one two-space unit deeper;
empty arrays and objects are rendered inline. -/
def renderJson (ind : Nat) : Json → String
  | .str s => quoteStr s
  | .num n => intStr n
  | .bool b => if b then "true" else "false"
  | .arr [] => "[]"
  | .arr (x :: xs) =>
      "[\n" ++
      String.intercalate ",\n"
        (((x :: xs).attach).map (fun ⟨x0, hx⟩ => indentStr (ind + 1) ++ renderJson (ind + 1) x0)) ++
      "\n" ++ indentStr ind ++ "]"
  | .obj [] => "\x7b\x7d"
  | .obj (f :: fs) =>
      "\x7b\n" ++
      String.intercalate ",\n"
        (((f :: fs).attach).map
          (fun ⟨⟨k, v⟩, hp⟩ => indentStr (ind + 1) ++ quoteStr k ++ ": " ++
            renderJson (ind + 1) v)) ++
      "\n" ++ indentStr ind ++ "\x7d"
termination_by j => sizeOf j
decreasing_by
  · have h := List.sizeOf_lt_of_mem hx
    simp only [Json.arr.sizeOf_spec]
    omega
  · have h := List.sizeOf_lt_of_mem hp
    simp only [Prod.mk.sizeOf_spec] at h
    simp only [Json.obj.sizeOf_spec]
    omega

/-- Field lookup in a JSON object's field list. -/
def lookupField : List (String × Json) → String → Option Json
  | [], _ => none
  | (k, v) :: rest, key => if k = key then some v else lookupField rest key

/-- Key lookup on a JSON document (objects only). -/
def jsonLookup (j : Json) (key : String) : Option Json :=
  match j with
  | .obj fields => lookupField fields key
  | _ => none

/-- Models `attribute.Value` from the OpenTelemetry API for the scalar kinds
relevant here (string, 64-bit integer, boolean). -/
inductive AttrValue where
  | str (s : String)
  | int (i : Int)
  | bool (b : Bool)
deriving DecidableEq

/-- Models `attribute.KeyValue`: one span attribute. -/
structure KeyValue where
  key : String
  value : AttrValue
deriving DecidableEq

/-- The `Type` tag emitted by `attribute.Value`'s JSON marshaling. -/
def attrTypeName : AttrValue → String
  | .str _ => "STRING"
  | .int _ => "INT64"
  | .bool _ => "BOOL"

/-- The `Value` payload emitted by `attribute.Value`'s JSON marshaling. -/
def attrValueJson : AttrValue → Json
  | .str s => .str s
  | .int i => .num i
  | .bool b => .bool b

/-- JSON document for one `attribute.KeyValue`. -/
def keyValueToJson (kv : KeyValue) : Json :=
  .obj [("Key", .str kv.key),
        ("Value", .obj [("Type", .str (attrTypeName kv.value)),
                        ("Value", attrValueJson kv.value)])]

/-- JSON document for a `span.Attributes()` slice. -/
def attrsToJson (kvs : List KeyValue) : Json := .arr (kvs.map keyValueToJson)

/-- Projection of `sdktrace.ReadOnlySpan` onto the fields read by
`spanToMap`: name, start time, end time and attributes. -/
structure Span where
  name : String
  startTime : Int
  endTime : Int
  attributes : List KeyValue
deriving DecidableEq

/-- A dynamic (`interface` typed) value as stored in the map built by
`spanToMap`: a string, a `time.Time`, or an attribute slice. -/
inductive GoValue where
  | str (s : String)
  | time (t : Int)
  | attrs (kvs : List KeyValue)
deriving DecidableEq

/-- `spanToMap` from the source: the map holding the span's name, start
time, end time and attributes (written here as the key/value list in the
source's order). -/
def spanToMap (span : Span) : List (String × GoValue) :=
  [("name", .str span.name),
   ("startTime", .time span.startTime),
   ("endTime", .time span.endTime),
   ("attributes", .attrs span.attributes)]

/-- The Go error values this code path can produce. -/
inductive GoError where
  | timeRange (t : Int)
  | errClosed
  | pathError (path : String)
deriving DecidableEq

/-- Lowest instant `time.Time.MarshalJSON` accepts: 0000-01-01T00:00:00Z
in nanoseconds relative to the Unix epoch. -/
def minMarshalNs : Int := -62135596800000000000

/-- First instant past the marshalable range: 10000-01-01T00:00:00Z in
nanoseconds relative to the Unix epoch. -/
def maxMarshalNsExcl : Int := 253402300800000000000

/-- Whether `time.Time.MarshalJSON` succeeds on the instant: the year must
lie in [0, 9999]. -/
def timeMarshalOk (t : Int) : Bool :=
  decide (minMarshalNs ≤ t) && decide (t < maxMarshalNsExcl)

/-- Models `time.Time`'s JSON marshaling: a quoted timestamp string, or the
year-out-of-range error. -/
def timeToJson (t : Int) : Except GoError Json :=
  if timeMarshalOk t then .ok (.str (timeFormat t)) else .error (.timeRange t)

/-- JSON marshaling of one dynamic value. -/
def goValueToJson : GoValue → Except GoError Json
  | .str s => .ok (.str s)
  | .time t => timeToJson t
  | .attrs kvs => .ok (attrsToJson kvs)

/-- Insertion step of the key sort `encoding/json` applies to map keys. -/
def insertField (kv : String × GoValue) : List (String × GoValue) → List (String × GoValue)
  | [] => [kv]
  | kv2 :: rest => if kv.1 < kv2.1 then kv :: kv2 :: rest else kv2 :: insertField kv rest

/-- `encoding/json` marshals Go maps with keys in sorted order. -/
def sortFields (fields : List (String × GoValue)) : List (String × GoValue) :=
  fields.foldr insertField []

/-- Marshal each field of a (sorted) field list, stopping at the first
error, as `encoding/json` does. -/
def fieldsToJson : List (String × GoValue) → Except GoError (List (String × Json))
  | [] => .ok []
  | (k, v) :: rest =>
    match goValueToJson v with
    | .error e => .error e
    | .ok j =>
      match fieldsToJson rest with
      | .error e => .error e
      | .ok js => .ok ((k, j) :: js)

/-- Models `encoding/json` marshaling of a `map` with `string` keys and
dynamic values: sort the keys, marshal each value. -/
def mapToJson (m : List (String × GoValue)) : Except GoError Json :=
  match fieldsToJson (sortFields m) with
  | .error e => .error e
  | .ok fields => .ok (.obj fields)

/-- Models `json.MarshalIndent(v, "", "  ")` on the span map: marshal, then
pretty-print with two-space indentation. -/
def marshalIndent (m : List (String × GoValue)) : Except GoError String :=
  match mapToJson m with
  | .error e => .error e
  | .ok j => .ok (renderJson 0 j)

/-- Both timestamps of the span are in the marshalable range, hence
`json.MarshalIndent(spanToMap span, "", "  ")` succeeds. -/
def spanTimesOk (s : Span) : Bool :=
  timeMarshalOk s.startTime && timeMarshalOk s.endTime

/-- The JSON document `ExportSpans` emits for one span: keys in the order
`encoding/json` sorts them to. -/
def spanJsonObj (s : Span) : Json :=
  Json.obj [("attributes", attrsToJson s.attributes),
            ("endTime", Json.str (timeFormat s.endTime)),
            ("name", Json.str s.name),
            ("startTime", Json.str (timeFormat s.startTime))]

/-- The serialized document text for one span (empty on marshal failure). -/
def docOf (s : Span) : String :=
  match marshalIndent (spanToMap s) with
  | .ok d => d
  | .error _ => ""

theorem sortFields_spanToMap (s : Span) :
    sortFields (spanToMap s)
      = [("attributes", GoValue.attrs s.attributes),
         ("endTime", GoValue.time s.endTime),
         ("name", GoValue.str s.name),
         ("startTime", GoValue.time s.startTime)] := by
  simp +decide [sortFields, insertField, spanToMap]

theorem mapToJson_spanToMap (s : Span) (h : spanTimesOk s = true) :
    mapToJson (spanToMap s) = .ok (spanJsonObj s) := by
  have h1 : timeMarshalOk s.startTime = true := by
    unfold spanTimesOk at h
    exact (Bool.and_eq_true _ _ |>.mp h).1
  have h2 : timeMarshalOk s.endTime = true := by
    unfold spanTimesOk at h
    exact (Bool.and_eq_true _ _ |>.mp h).2
  simp [mapToJson, sortFields_spanToMap, fieldsToJson, goValueToJson, timeToJson, h1, h2,
    spanJsonObj]

theorem marshalIndent_spanToMap (s : Span) (h : spanTimesOk s = true) :
    marshalIndent (spanToMap s) = .ok (renderJson 0 (spanJsonObj s)) := by
  simp [marshalIndent, mapToJson_spanToMap s h]

theorem docOf_eq (s : Span) (h : spanTimesOk s = true) :
    docOf s = renderJson 0 (spanJsonObj s) := by
  simp [docOf, marshalIndent_spanToMap s h]

/-- The error `json.MarshalIndent` reports for a span whose timestamps are
not both marshalable: `encoding/json` visits the sorted keys in order, so a
bad end time is reported before a bad start time. -/
def spanMarshalErr (s : Span) : GoError :=
  if timeMarshalOk s.endTime then .timeRange s.startTime else .timeRange s.endTime

theorem marshalIndent_spanToMap_bad (s : Span) (h : spanTimesOk s = false) :
    marshalIndent (spanToMap s) = .error (spanMarshalErr s) := by
  unfold spanTimesOk at h
  by_cases hend : timeMarshalOk s.endTime = true
  · have hstart : timeMarshalOk s.startTime = false := by
      cases hs : timeMarshalOk s.startTime
      · rfl
      · rw [hs, hend] at h; simp at h
    simp [marshalIndent, mapToJson, sortFields_spanToMap, fieldsToJson, goValueToJson,
      timeToJson, hend, hstart, spanMarshalErr]
  · have hend' : timeMarshalOk s.endTime = false := by
      cases hs : timeMarshalOk s.endTime
      · rfl
      · exact absurd hs hend
    simp [marshalIndent, mapToJson, sortFields_spanToMap, fieldsToJson, goValueToJson,
      timeToJson, hend', spanMarshalErr]

theorem attrValueJson_inj (v1 v2 : AttrValue) (h : attrValueJson v1 = attrValueJson v2) :
    v1 = v2 := by
  cases v1 <;> cases v2 <;> simp_all [attrValueJson]

theorem keyValueToJson_inj (kv1 kv2 : KeyValue) (h : keyValueToJson kv1 = keyValueToJson kv2) :
    kv1 = kv2 := by
  cases kv1 with
  | mk k1 v1 =>
    cases kv2 with
    | mk k2 v2 =>
      simp only [keyValueToJson, Json.obj.injEq, List.cons.injEq, Prod.mk.injEq,
        Json.str.injEq, and_true, true_and] at h
      obtain ⟨hk, _, hv⟩ := h
      exact congrArg₂ KeyValue.mk hk (attrValueJson_inj v1 v2 hv)

theorem attrsToJson_inj (as bs : List KeyValue) (h : attrsToJson as = attrsToJson bs) :
    as = bs := by
  simp only [attrsToJson, Json.arr.injEq] at h
  exact List.map_injective_iff.mpr (fun a b hab => keyValueToJson_inj a b hab) h

/-- Extract the span's name, start time and end time back out of one emitted
JSON document. -/
def parseSpanDoc (j : Json) : Option (String × Int × Int) :=
  match jsonLookup j "name", jsonLookup j "startTime", jsonLookup j "endTime" with
  | some (.str n), some (.str st), some (.str en) =>
    match timeParse st, timeParse en with
    | some t1, some t2 => some (n, t1, t2)
    | _, _ => none
  | _, _, _ => none

theorem parseSpanDoc_spanJsonObj (s : Span) :
    parseSpanDoc (spanJsonObj s) = some (s.name, s.startTime, s.endTime) := by
  simp [parseSpanDoc, spanJsonObj, jsonLookup, lookupField, timeParse_timeFormat]

/-- Generic association-list update (insert or replace). -/
def setAssoc [BEq α] (l : List (α × β)) (k : α) (v : β) : List (α × β) :=
  match l with
  | [] => [(k, v)]
  | (k2, v2) :: rest => if k == k2 then (k, v) :: rest else (k2, v2) :: setAssoc rest k v

/-- State of one open-file description (`*os.File`): the path it writes to
and whether it has been closed. -/
structure Handle where
  path : String
  closed : Bool
deriving DecidableEq

/-- The process-visible state the exporter code touches: which paths
`os.Create` can create, the current file contents, and the table of file
handles (a `*os.File` value is a descriptor into this table, so copies of
the pointer alias one mutable handle). -/
structure World where
  creatable : List String
  files : List (String × String)
  handles : List (Nat × Handle)
  nextFd : Nat
deriving DecidableEq

/-- Content currently stored at `path` (empty if the file is absent). -/
def fileContent (w : World) (path : String) : String :=
  (List.lookup path w.files).getD ""

/-- Models `os.Create`: truncate/create the file at `name` and return a
fresh open handle, or fail with a path error when the path is not
writable. -/
def osCreate (w : World) (name : String) : Except GoError Nat × World :=
  if w.creatable.contains name then
    (Except.ok w.nextFd,
     { w with files := setAssoc w.files name "",
              handles := setAssoc w.handles w.nextFd ⟨name, false⟩,
              nextFd := w.nextFd + 1 })
  else
    (Except.error (GoError.pathError name), w)

/-- Models `(*os.File).Write`: append the bytes to the handle's file; a
closed (or unknown) handle yields `os.ErrClosed` and changes nothing. -/
def fileWrite (w : World) (fd : Nat) (data : String) : Except GoError Nat × World :=
  match List.lookup fd w.handles with
  | some h =>
      if h.closed then (Except.error GoError.errClosed, w)
      else (Except.ok data.length,
            { w with files := setAssoc w.files h.path (fileContent w h.path ++ data) })
  | none => (Except.error GoError.errClosed, w)

/-- Models `(*os.File).Close`: mark the handle closed; a second close (or an
unknown handle) yields `os.ErrClosed` and changes nothing. -/
def fileClose (w : World) (fd : Nat) : Except GoError Unit × World :=
  match List.lookup fd w.handles with
  | some h =>
      if h.closed then (Except.error GoError.errClosed, w)
      else (Except.ok (), { w with handles := setAssoc w.handles fd ⟨h.path, true⟩ })
  | none => (Except.error GoError.errClosed, w)

/-- `type FileSpanExporter struct` with its single `file *os.File` field
(the handle descriptor). -/
structure FileSpanExporter where
  file : Nat
deriving DecidableEq

/-- Outcome of a Go computation that may panic at runtime. -/
inductive PanicOr (α : Type) where
  | panicked (msg : String)
  | value (v : α)
deriving DecidableEq

/-- The Go runtime message for dereferencing a nil pointer. -/
def nilDerefMsg : String :=
  "runtime error: invalid memory address or nil pointer dereference"

/-- `context.Context` as used by this code: only whether it was cancelled. -/
structure Context where
  cancelled : Bool
deriving DecidableEq

/-- `context.Background()`. -/
def Context.background : Context := ⟨false⟩

/-- `context.WithCancel`: a child context, not cancelled at creation (the
code defers the cancel function until after the shutdown call returns, so
cancellation is never observed by the callee). -/
def contextWithCancel (c : Context) : Context := ⟨c.cancelled⟩

/-- `NewFileSpanExporter(filename)`: `os.Create` the file; on error return
the nil pointer and the error, otherwise the exporter holding the open
handle and a nil error. -/
def NewFileSpanExporter (w : World) (filename : String) :
    (Option FileSpanExporter × Option GoError) × World :=
  match osCreate w filename with
  | (.error e, w') => ((none, some e), w')
  | (.ok fd, w') => ((some ⟨fd⟩, none), w')

/-- `func (f *FileSpanExporter) Shutdown(ctx context.Context) error`:
`return f.file.Close()`.  A nil receiver (`none`) panics at the `f.file`
dereference. -/
def Shutdown (f : Option FileSpanExporter) (_ctx : Context) (w : World) :
    PanicOr (Except GoError Unit × World) :=
  match f with
  | none => .panicked nilDerefMsg
  | some fe => .value (fileClose w fe.file)

/-- `func (f *FileSpanExporter) ExportSpans(ctx, spans) error`: for each span
in order, `json.MarshalIndent(spanToMap(span), "", "  ")`, return the error
if marshaling fails, then write the document plus a trailing newline to the
file, returning the error if the write fails.  A nil receiver (`none`)
panics when the loop first dereferences `f.file` for a write; if the loop
returns before any write (empty batch, or a marshal error on the first
span) the nil receiver is never dereferenced. -/
def ExportSpans (f : Option FileSpanExporter) (ctx : Context) (spans : List Span) (w : World) :
    PanicOr (Except GoError Unit × World) :=
  match spans with
  | [] => .value (.ok (), w)
  | span :: rest =>
    match marshalIndent (spanToMap span) with
    | .error e => .value (.error e, w)
    | .ok data =>
      match f with
      | none => .panicked nilDerefMsg
      | some fe =>
        match fileWrite w fe.file (data ++ "\n") with
        | (.error e, w') => .value (.error e, w')
        | (.ok _, w') => ExportSpans f ctx rest w'

/-- Models `resource.NewWithAttributes`: the static service metadata. -/
structure OtelResource where
  schemaURL : String
  serviceAttrs : List (String × String)
deriving DecidableEq

/-- `semconv.SchemaURL` for semconv v1.7.0. -/
def semconvSchemaURL : String := "https://opentelemetry.io/schemas/1.7.0"

/-- `sdktrace.AlwaysSample()` is the only sampler this code configures. -/
inductive Sampler where
  | alwaysSample
deriving DecidableEq

/-- Models the `sdktrace.TracerProvider` built by `TraceFileProvider`: the
batched exporter (a possibly nil pointer), the sampler, the resource,
the spans batched but not yet exported, and the shutdown flag. -/
structure TracerProvider where
  exporter : Option FileSpanExporter
  sampler : Sampler
  res : OtelResource
  buffered : List Span
  isShutdown : Bool
deriving DecidableEq

/-- The process state `TraceFileProvider` touches: the world plus the global
tracer-provider slot written by `otel.SetTracerProvider`. -/
structure SysState where
  world : World
  otelGlobal : Option TracerProvider
deriving DecidableEq

/-- `TraceFileProvider(filePath, serviceName, serviceVersion)` from the
source: construct the sink (the `if err != nil` branch has an empty body,
so a construction error is ignored), build the resource and the tracer
provider with the batched exporter and an always-on sampler, install the
provider globally, and return the cleanup closure (modelled by the captured
provider value) together with an unconditionally nil error. -/
def TraceFileProvider (st : SysState) (filePath serviceName serviceVersion : String) :
    (TracerProvider × Option GoError) × SysState :=
  let r := NewFileSpanExporter st.world filePath
  let exporter := r.1.1
  let otelResource : OtelResource :=
    ⟨semconvSchemaURL, [("service.name", serviceName), ("service.version", serviceVersion)]⟩
  let tracerProvider : TracerProvider :=
    ⟨exporter, Sampler.alwaysSample, otelResource, [], false⟩
  let cleanup := tracerProvider
  ((cleanup, none), ⟨r.2, some tracerProvider⟩)

/-- Models `sdktrace.TracerProvider.Shutdown` as the spec describes it:
flush the batched spans to the exporter, then shut the exporter down,
reporting the first error.  The SDK's batch processor guards the nil
exporter (spans are dropped and the exporter shutdown is skipped), and a
second provider shutdown is a recorded no-op. -/
def providerShutdown (tp : TracerProvider) (ctx : Context) (w : World) :
    PanicOr (Except GoError Unit × TracerProvider × World) :=
  if tp.isShutdown then .value (.ok (), tp, w)
  else
    let tp' := { tp with isShutdown := true, buffered := [] }
    match tp.exporter with
    | none => .value (.ok (), tp', w)
    | some fe =>
      match ExportSpans (some fe) ctx tp.buffered w with
      | .panicked m => .panicked m
      | .value (flushRes, w1) =>
        match Shutdown (some fe) ctx w1 with
        | .panicked m => .panicked m
        | .value (closeRes, w2) =>
          match flushRes with
          | .error e => .value (.error e, tp', w2)
          | .ok _ => .value (closeRes, tp', w2)

/-- The cleanup closure returned by `TraceFileProvider`: create a fresh
cancellable context (cancel deferred until after the call), shut the
captured provider down, and return without surfacing the error (the
`if err != nil` branch just returns). -/
def runCleanup (tp : TracerProvider) (w : World) : PanicOr (Unit × TracerProvider × World) :=
  let ctx := contextWithCancel Context.background
  match providerShutdown tp ctx w with
  | .panicked m => .panicked m
  | .value (_err, tp', w') => .value ((), tp', w')

theorem lookup_setAssoc_self [BEq α] [LawfulBEq α] (l : List (α × β)) (k : α) (v : β) :
    List.lookup k (setAssoc l k v) = some v := by
  induction l with
  | nil => simp [setAssoc, List.lookup]
  | cons kv rest ih =>
    obtain ⟨k2, v2⟩ := kv
    by_cases h : (k == k2) = true
    · simp [setAssoc, h, List.lookup]
    · simp only [setAssoc, h, Bool.false_eq_true, if_false]
      simp only [List.lookup, h, ih]

theorem lookup_setAssoc_ne [BEq α] [LawfulBEq α] (l : List (α × β)) (k k' : α) (v : β)
    (h : k' ≠ k) : List.lookup k' (setAssoc l k v) = List.lookup k' l := by
  have hbeq : (k' == k) = false := beq_eq_false_iff_ne.mpr h
  induction l with
  | nil => simp [setAssoc, List.lookup, hbeq]
  | cons kv rest ih =>
    obtain ⟨k2, v2⟩ := kv
    by_cases h2 : (k == k2) = true
    · have : (k' == k2) = false := by
        have hk : k = k2 := eq_of_beq h2
        rw [← hk]; exact hbeq
      simp [setAssoc, h2, List.lookup, this, hbeq]
    · simp only [setAssoc, h2, Bool.false_eq_true, if_false]
      by_cases h3 : (k' == k2) = true
      · simp [List.lookup, h3]
      · simp only [List.lookup, h3, Bool.false_eq_true, if_false, ih]

/-- Concatenation of the serialized documents (with trailing newlines) of a
span list, in order. -/
def docsConcat : List Span → String
  | [] => ""
  | s :: rest => (docOf s ++ "\n") ++ docsConcat rest

theorem fileWrite_open (w : World) (fd : Nat) (p : String) (data : String)
    (h : List.lookup fd w.handles = some ⟨p, false⟩) :
    fileWrite w fd data
      = (.ok data.length,
         { w with files := setAssoc w.files p (fileContent w p ++ data) }) := by
  simp [fileWrite, h]

theorem fileContent_set_self (w : World) (p : String) (c : String) :
    fileContent { w with files := setAssoc w.files p c } p = c := by
  simp [fileContent, lookup_setAssoc_self]

theorem fileContent_set_ne (w : World) (p q : String) (c : String) (h : q ≠ p) :
    fileContent { w with files := setAssoc w.files p c } q = fileContent w q := by
  simp [fileContent, lookup_setAssoc_ne _ _ _ _ h]

/-- Success run of the export loop: open handle, all spans marshalable. -/
theorem exportSpans_ok (fd : Nat) (p : String) (ctx : Context) (spans : List Span) (w : World)
    (hopen : List.lookup fd w.handles = some ⟨p, false⟩)
    (hok : ∀ s ∈ spans, spanTimesOk s = true) :
    ∃ w', ExportSpans (some ⟨fd⟩) ctx spans w = .value (.ok (), w')
      ∧ fileContent w' p = fileContent w p ++ docsConcat spans
      ∧ (∀ q, q ≠ p → fileContent w' q = fileContent w q)
      ∧ w'.handles = w.handles
      ∧ w'.creatable = w.creatable
      ∧ w'.nextFd = w.nextFd := by
  induction spans generalizing w with
  | nil =>
    exact ⟨w, rfl, by simp [docsConcat], fun q _ => rfl, rfl, rfl, rfl⟩
  | cons s rest ih =>
    have hs : spanTimesOk s = true := hok s (List.mem_cons_self s rest)
    have hrest : ∀ s2 ∈ rest, spanTimesOk s2 = true :=
      fun s2 h2 => hok s2 (List.mem_cons_of_mem s h2)
    have hmarshal := marshalIndent_spanToMap s hs
    have hdoc : renderJson 0 (spanJsonObj s) = docOf s := (docOf_eq s hs).symm
    set w1 : World :=
      { w with files := setAssoc w.files p (fileContent w p ++ (docOf s ++ "\n")) } with hw1
    have hopen1 : List.lookup fd w1.handles = some ⟨p, false⟩ := hopen
    obtain ⟨w', hrun, hcontent, hother, hhandles, hcreat, hfd⟩ := ih w1 hopen1 hrest
    refine ⟨w', ?_, ?_, ?_, hhandles, hcreat, hfd⟩
    · show ExportSpans (some ⟨fd⟩) ctx (s :: rest) w = .value (.ok (), w')
      unfold ExportSpans
      rw [hmarshal]
      simp only []
      rw [hdoc, fileWrite_open w fd p _ hopen]
      exact hrun
    · rw [hcontent, hw1, fileContent_set_self]
      simp [docsConcat, String.append_assoc]
    · intro q hq
      rw [hother q hq, hw1, fileContent_set_ne _ _ _ _ hq]

/-- Error run of the export loop: the spans before `bad` succeed, `bad`
fails to marshal; the loop stops there, returning the marshal error, with
the earlier documents written and the remaining spans untouched. -/
theorem exportSpans_err_mid (fd : Nat) (p : String) (ctx : Context)
    (pre : List Span) (bad : Span) (w : World)
    (hopen : List.lookup fd w.handles = some ⟨p, false⟩)
    (hpre : ∀ s ∈ pre, spanTimesOk s = true)
    (hbad : spanTimesOk bad = false) :
    ∃ w', (∀ rest, ExportSpans (some ⟨fd⟩) ctx (pre ++ bad :: rest) w
        = .value (.error (spanMarshalErr bad), w'))
      ∧ fileContent w' p = fileContent w p ++ docsConcat pre
      ∧ (∀ q, q ≠ p → fileContent w' q = fileContent w q)
      ∧ w'.handles = w.handles := by
  induction pre generalizing w with
  | nil =>
    refine ⟨w, ?_, by simp [docsConcat], fun q _ => rfl, rfl⟩
    intro rest
    show ExportSpans (some ⟨fd⟩) ctx (bad :: rest) w = .value (.error (spanMarshalErr bad), w)
    unfold ExportSpans
    rw [marshalIndent_spanToMap_bad bad hbad]
  | cons s pre' ih =>
    have hs : spanTimesOk s = true := hpre s (List.mem_cons_self s pre')
    have hpre' : ∀ s2 ∈ pre', spanTimesOk s2 = true :=
      fun s2 h2 => hpre s2 (List.mem_cons_of_mem s h2)
    have hmarshal := marshalIndent_spanToMap s hs
    have hdoc : renderJson 0 (spanJsonObj s) = docOf s := (docOf_eq s hs).symm
    set w1 : World :=
      { w with files := setAssoc w.files p (fileContent w p ++ (docOf s ++ "\n")) } with hw1
    have hopen1 : List.lookup fd w1.handles = some ⟨p, false⟩ := hopen
    obtain ⟨w', hrun, hcontent, hother, hhandles⟩ := ih w1 hopen1 hpre'
    refine ⟨w', ?_, ?_, ?_, hhandles⟩
    · intro rest
      show ExportSpans (some ⟨fd⟩) ctx ((s :: pre') ++ bad :: rest) w
        = .value (.error (spanMarshalErr bad), w')
      rw [List.cons_append]
      unfold ExportSpans
      rw [hmarshal]
      simp only []
      rw [hdoc, fileWrite_open w fd p _ hopen]
      exact hrun rest
    · rw [hcontent, hw1, fileContent_set_self]
      simp [docsConcat, String.append_assoc]
    · intro q hq
      rw [hother q hq, hw1, fileContent_set_ne _ _ _ _ hq]

/-- Export against a closed handle: the state is left completely unchanged
(the first span either fails to marshal or fails to write). -/
theorem exportSpans_closed (fd : Nat) (p : String) (ctx : Context)
    (spans : List Span) (w : World)
    (hclosed : List.lookup fd w.handles = some ⟨p, true⟩) :
    ∃ r, ExportSpans (some ⟨fd⟩) ctx spans w = .value (r, w) := by
  match spans with
  | [] => exact ⟨.ok (), rfl⟩
  | s :: rest =>
    cases hok : spanTimesOk s with
    | true =>
      refine ⟨.error .errClosed, ?_⟩
      unfold ExportSpans
      rw [marshalIndent_spanToMap s hok]
      simp only []
      simp [fileWrite, hclosed]
    | false =>
      refine ⟨.error (spanMarshalErr s), ?_⟩
      unfold ExportSpans
      rw [marshalIndent_spanToMap_bad s hok]

/-- One write step only appends (or changes nothing). -/
theorem fileWrite_appendOnly (w : World) (fd : Nat) (data : String) :
    ∀ q, ∃ d, fileContent (fileWrite w fd data).2 q = fileContent w q ++ d := by
  intro q
  unfold fileWrite
  match hl : List.lookup fd w.handles with
  | none => exact ⟨"", by simp⟩
  | some h =>
    by_cases hc : h.closed
    · exact ⟨"", by simp [hc]⟩
    · simp only [hc, Bool.false_eq_true, if_false]
      by_cases hq : q = h.path
      · subst hq
        exact ⟨data, by simp [fileContent_set_self]⟩
      · exact ⟨"", by simp [fileContent_set_ne _ _ _ _ hq]⟩

/-- The export loop only ever appends to files, whatever its outcome. -/
theorem exportSpans_appendOnly (f : Option FileSpanExporter) (ctx : Context)
    (spans : List Span) (w : World) (r : Except GoError Unit) (w' : World)
    (hrun : ExportSpans f ctx spans w = .value (r, w')) :
    ∀ q, ∃ d, fileContent w' q = fileContent w q ++ d := by
  induction spans generalizing w with
  | nil =>
    intro q
    refine ⟨"", ?_⟩
    unfold ExportSpans at hrun
    cases hrun
    simp
  | cons s rest ih =>
    intro q
    unfold ExportSpans at hrun
    split at hrun
    · cases hrun
      exact ⟨"", by simp⟩
    · split at hrun
      · cases hrun
      · rename_i data hm fopt fe
        split at hrun
        · rename_i e w1 hw
          cases hrun
          obtain ⟨d, hd⟩ := fileWrite_appendOnly w fe.file (data ++ "\n") q
          rw [hw] at hd
          exact ⟨d, hd⟩
        · rename_i n w1 hw
          obtain ⟨d1, hd1⟩ := ih w1 hrun q
          obtain ⟨d0, hd0⟩ := fileWrite_appendOnly w fe.file (data ++ "\n") q
          rw [hw] at hd0
          exact ⟨d0 ++ d1, by rw [hd1, hd0, String.append_assoc]⟩

/-- Claim C5: `Shutdown` closes the output file handle and returns the close
result; it is not idempotent — a second `Shutdown` returns an error because
the handle is already closed — and the second call leaves the file contents
written before the first call unchanged. -/
theorem C5_shutdown_close_not_idempotent (fd : Nat) (p : String) (ctx1 ctx2 : Context)
    (w : World) (hopen : List.lookup fd w.handles = some ⟨p, false⟩) :
    ∃ w1, Shutdown (some ⟨fd⟩) ctx1 w = .value (.ok (), w1)
      ∧ List.lookup fd w1.handles = some ⟨p, true⟩
      ∧ w1.files = w.files
      ∧ Shutdown (some ⟨fd⟩) ctx2 w1 = .value (.error .errClosed, w1) := by
  refine ⟨{ w with handles := setAssoc w.handles fd ⟨p, true⟩ }, ?_, ?_, rfl, ?_⟩
  · show PanicOr.value (fileClose w fd) = _
    simp [fileClose, hopen]
  · exact lookup_setAssoc_self _ _ _
  · show PanicOr.value (fileClose _ fd) = _
    simp [fileClose, lookup_setAssoc_self]

theorem C5_shutdown_close_not_idempotent_witness :
    (List.lookup 0 (World.mk ["out"] [("out", "x")] [(0, ⟨"out", false⟩)] 1).handles
        = some ⟨"out", false⟩)
    ∧ ∃ w1,
        Shutdown (some ⟨0⟩) ⟨false⟩ (World.mk ["out"] [("out", "x")] [(0, ⟨"out", false⟩)] 1)
          = .value (.ok (), w1)
        ∧ List.lookup 0 w1.handles = some ⟨"out", true⟩
        ∧ w1.files = (World.mk ["out"] [("out", "x")] [(0, ⟨"out", false⟩)] 1).files
        ∧ Shutdown (some ⟨0⟩) ⟨false⟩ w1 = .value (.error .errClosed, w1) :=
  ⟨by decide,
   C5_shutdown_close_not_idempotent 0 "out" ⟨false⟩ ⟨false⟩
     (World.mk ["out"] [("out", "x")] [(0, ⟨"out", false⟩)] 1) (by decide)⟩

/-- Claim C6: `NewFileSpanExporter` on a creatable path truncates/creates
the file (its content becomes empty whatever it was) and returns an
exporter holding a fresh open handle with a nil error; on a non-creatable
path it returns a nil exporter together with a non-nil error and changes
nothing. -/
theorem C6_constructor_create_or_fail (w : World) (filename : String) :
    (w.creatable.contains filename = true →
      NewFileSpanExporter w filename
        = ((some ⟨w.nextFd⟩, none),
           { w with files := setAssoc w.files filename "",
                    handles := setAssoc w.handles w.nextFd ⟨filename, false⟩,
                    nextFd := w.nextFd + 1 })
      ∧ fileContent (NewFileSpanExporter w filename).2 filename = ""
      ∧ List.lookup w.nextFd (NewFileSpanExporter w filename).2.handles
          = some ⟨filename, false⟩)
    ∧ (w.creatable.contains filename = false →
        NewFileSpanExporter w filename = ((none, some (.pathError filename)), w)) := by
  constructor
  · intro h
    have hmem : filename ∈ w.creatable := by simpa using h
    refine ⟨?_, ?_, ?_⟩
    · simp [NewFileSpanExporter, osCreate, hmem]
    · simp [NewFileSpanExporter, osCreate, hmem, fileContent, lookup_setAssoc_self]
    · simp [NewFileSpanExporter, osCreate, hmem, lookup_setAssoc_self]
  · intro h
    have hmem : filename ∉ w.creatable := by simpa using h
    simp [NewFileSpanExporter, osCreate, hmem]

theorem C6_constructor_create_or_fail_witness :
    ((World.mk ["out"] [("out", "old")] [] 0).creatable.contains "out" = true
      ∧ NewFileSpanExporter (World.mk ["out"] [("out", "old")] [] 0) "out"
          = ((some ⟨0⟩, none), World.mk ["out"] [("out", "")] [(0, ⟨"out", false⟩)] 1)
      ∧ fileContent (NewFileSpanExporter (World.mk ["out"] [("out", "old")] [] 0) "out").2 "out"
          = "")
    ∧ ((World.mk [] [] [] 0).creatable.contains "bad/path" = false
      ∧ NewFileSpanExporter (World.mk [] [] [] 0) "bad/path"
          = ((none, some (.pathError "bad/path")), World.mk [] [] [] 0)) := by
  have h1 := (C6_constructor_create_or_fail (World.mk ["out"] [("out", "old")] [] 0) "out").1
    (by decide)
  have h2 := (C6_constructor_create_or_fail (World.mk [] [] [] 0) "bad/path").2 (by decide)
  refine ⟨⟨by decide, ?_, h1.2.1⟩, ⟨by decide, h2⟩⟩
  have := h1.1
  rw [this]
  decide

/-- Claim C7: for a span that exports successfully, the emitted JSON
document determines the original name, start time and end time exactly:
extracting those keys from the document and parsing the timestamp strings
gives back the span's field values (round-trip at the JSON-document
level). -/
theorem C7_roundtrip_name_times (s : Span) (h : spanTimesOk s = true) :
    marshalIndent (spanToMap s) = .ok (renderJson 0 (spanJsonObj s))
    ∧ parseSpanDoc (spanJsonObj s) = some (s.name, s.startTime, s.endTime) :=
  ⟨marshalIndent_spanToMap s h, parseSpanDoc_spanJsonObj s⟩

theorem C7_roundtrip_name_times_witness :
    (spanTimesOk ⟨"request", 3, 7, [⟨"http.method", .str "GET"⟩]⟩ = true)
    ∧ (marshalIndent (spanToMap ⟨"request", 3, 7, [⟨"http.method", .str "GET"⟩]⟩)
        = .ok (renderJson 0 (spanJsonObj ⟨"request", 3, 7, [⟨"http.method", .str "GET"⟩]⟩))
      ∧ parseSpanDoc (spanJsonObj ⟨"request", 3, 7, [⟨"http.method", .str "GET"⟩]⟩)
        = some ("request", 3, 7)) :=
  ⟨by decide, C7_roundtrip_name_times ⟨"request", 3, 7, [⟨"http.method", .str "GET"⟩]⟩ (by decide)⟩

/-- Claim C10: `ExportSpans` only appends: whatever the outcome value
(success or error), the prior content of every file is unchanged and
remains a prefix of the file's content after the call. -/
theorem C10_export_append_only (f : Option FileSpanExporter) (ctx : Context)
    (spans : List Span) (w : World) (r : Except GoError Unit) (w' : World)
    (hrun : ExportSpans f ctx spans w = .value (r, w')) (p : String) :
    ∃ d, fileContent w' p = fileContent w p ++ d :=
  exportSpans_appendOnly f ctx spans w r w' hrun p

theorem C10_export_append_only_witness :
    (ExportSpans (some ⟨0⟩) ⟨false⟩ [] (World.mk ["out"] [("out", "x")] [(0, ⟨"out", false⟩)] 1)
        = .value (.ok (), World.mk ["out"] [("out", "x")] [(0, ⟨"out", false⟩)] 1))
    ∧ ∃ d, fileContent (World.mk ["out"] [("out", "x")] [(0, ⟨"out", false⟩)] 1) "out"
        = fileContent (World.mk ["out"] [("out", "x")] [(0, ⟨"out", false⟩)] 1) "out" ++ d :=
  ⟨rfl,
   C10_export_append_only (some ⟨0⟩) ⟨false⟩ []
     (World.mk ["out"] [("out", "x")] [(0, ⟨"out", false⟩)] 1) (.ok ())
     (World.mk ["out"] [("out", "x")] [(0, ⟨"out", false⟩)] 1) rfl "out"⟩

/-- Claim C3 (counterexample): when sink construction fails, the failure is
NOT reported to the caller of the setup routine — `TraceFileProvider`
returns a nil error even though `NewFileSpanExporter` reported a
construction error. -/
theorem C3_counterexample :
    (NewFileSpanExporter (World.mk [] [] [] 0) "out.json").1.2
        = some (.pathError "out.json")
    ∧ (TraceFileProvider ⟨World.mk [] [] [] 0, none⟩ "out.json" "svc" "1.0").1.2 = none := by
  constructor <;> rfl

/-- Claim C3 (amended): when sink construction fails, the constructor
reports the failure to the setup routine via its returned error value, but
the setup routine's handling of it is a no-op: no error reaches the caller
of `TraceFileProvider` (it returns nil), and setup continues to build the
pipeline and install it in the global tracer-provider slot. -/
theorem C3_construction_error_swallowed (st : SysState) (filePath sn sv : String)
    (hfail : st.world.creatable.contains filePath = false) :
    (NewFileSpanExporter st.world filePath).1.2 = some (.pathError filePath)
    ∧ (TraceFileProvider st filePath sn sv).1.2 = none
    ∧ (TraceFileProvider st filePath sn sv).2.otelGlobal
        = some (TraceFileProvider st filePath sn sv).1.1
    ∧ (TraceFileProvider st filePath sn sv).1.1.exporter = none := by
  have hmem : filePath ∉ st.world.creatable := by simpa using hfail
  refine ⟨?_, rfl, rfl, ?_⟩
  · simp [NewFileSpanExporter, osCreate, hmem]
  · simp [TraceFileProvider, NewFileSpanExporter, osCreate, hmem]

theorem C3_construction_error_swallowed_witness :
    ((World.mk [] [] [] 0).creatable.contains "out.json" = false)
    ∧ ((NewFileSpanExporter (World.mk [] [] [] 0) "out.json").1.2
          = some (.pathError "out.json")
      ∧ (TraceFileProvider ⟨World.mk [] [] [] 0, none⟩ "out.json" "svc" "1.0").1.2 = none
      ∧ (TraceFileProvider ⟨World.mk [] [] [] 0, none⟩ "out.json" "svc" "1.0").2.otelGlobal
          = some (TraceFileProvider ⟨World.mk [] [] [] 0, none⟩ "out.json" "svc" "1.0").1.1
      ∧ (TraceFileProvider ⟨World.mk [] [] [] 0, none⟩ "out.json" "svc" "1.0").1.1.exporter
          = none) :=
  ⟨by decide,
   C3_construction_error_swallowed ⟨World.mk [] [] [] 0, none⟩ "out.json" "svc" "1.0"
     (by decide)⟩

/-- Claim C4 (counterexample): not every later use of the nil sink fails
with a nil-pointer condition — after a failed construction returns the nil
exporter, `ExportSpans` on the nil exporter with an empty batch returns a
nil error without panicking (the loop body never dereferences `f.file`). -/
theorem C4_counterexample :
    (NewFileSpanExporter (World.mk [] [] [] 0) "out.json").1.1 = none
    ∧ ExportSpans none ⟨false⟩ [] (World.mk [] [] [] 0)
        = .value (.ok (), World.mk [] [] [] 0) := by
  constructor <;> rfl

/-- Claim C4 (amended): if sink construction fails, `NewFileSpanExporter`
returns a nil exporter pointer, setup nevertheless continues (the pipeline
with the nil exporter is installed globally and no error is returned), and
no guard prevents later use of the nil exporter: `Shutdown` panics with a
nil-pointer dereference, and `ExportSpans` panics as soon as it reaches its
first write (a call with an empty batch returns before dereferencing the
receiver and so does not panic). -/
theorem C4_nil_exporter_unguarded (st : SysState) (filePath sn sv : String) (ctx : Context)
    (hfail : st.world.creatable.contains filePath = false) :
    (NewFileSpanExporter st.world filePath).1.1 = none
    ∧ (TraceFileProvider st filePath sn sv).1.1.exporter = none
    ∧ (TraceFileProvider st filePath sn sv).2.otelGlobal
        = some (TraceFileProvider st filePath sn sv).1.1
    ∧ (TraceFileProvider st filePath sn sv).1.2 = none
    ∧ (∀ w, Shutdown none ctx w = .panicked nilDerefMsg)
    ∧ (∀ w s rest, spanTimesOk s = true →
        ExportSpans none ctx (s :: rest) w = .panicked nilDerefMsg)
    ∧ (∀ w, ExportSpans none ctx [] w = .value (.ok (), w)) := by
  have hmem : filePath ∉ st.world.creatable := by simpa using hfail
  refine ⟨?_, ?_, rfl, rfl, fun w => rfl, ?_, fun w => rfl⟩
  · simp [NewFileSpanExporter, osCreate, hmem]
  · simp [TraceFileProvider, NewFileSpanExporter, osCreate, hmem]
  · intro w s rest hs
    unfold ExportSpans
    rw [marshalIndent_spanToMap s hs]

theorem C4_nil_exporter_unguarded_witness :
    ((World.mk [] [] [] 0).creatable.contains "out.json" = false)
    ∧ (spanTimesOk ⟨"request", 3, 7, []⟩ = true)
    ∧ ((NewFileSpanExporter (World.mk [] [] [] 0) "out.json").1.1 = none
      ∧ Shutdown none ⟨false⟩ (World.mk [] [] [] 0) = .panicked nilDerefMsg
      ∧ ExportSpans none ⟨false⟩ [⟨"request", 3, 7, []⟩] (World.mk [] [] [] 0)
          = .panicked nilDerefMsg
      ∧ ExportSpans none ⟨false⟩ [] (World.mk [] [] [] 0)
          = .value (.ok (), World.mk [] [] [] 0)) := by
  have h := C4_nil_exporter_unguarded ⟨World.mk [] [] [] 0, none⟩ "out.json" "svc" "1.0"
    ⟨false⟩ (by decide)
  exact ⟨by decide, by decide,
    h.1,
    h.2.2.2.2.1 (World.mk [] [] [] 0),
    h.2.2.2.2.2.1 (World.mk [] [] [] 0) ⟨"request", 3, 7, []⟩ [] (by decide),
    h.2.2.2.2.2.2 (World.mk [] [] [] 0)⟩

/-- Claim C1: an `ExportSpans` run that completes without error over an
ordered batch of N spans appends to the output file exactly the N JSON
documents of those spans in input order, each rendered by the two-space
pretty-printer, each followed by a single newline, and each an object whose
`name`, `startTime`, `endTime` and `attributes` keys hold exactly the
span's name, times and attributes (the encodings are lossless); other files
are untouched. -/
theorem C1_export_appends_docs (fd : Nat) (p : String) (ctx : Context)
    (spans : List Span) (w : World)
    (hopen : List.lookup fd w.handles = some ⟨p, false⟩)
    (hok : ∀ s ∈ spans, spanTimesOk s = true) :
    ∃ w', ExportSpans (some ⟨fd⟩) ctx spans w = .value (.ok (), w')
      ∧ fileContent w' p = fileContent w p ++ docsConcat spans
      ∧ (∀ q, q ≠ p → fileContent w' q = fileContent w q)
      ∧ ∀ s ∈ spans,
          docOf s = renderJson 0 (spanJsonObj s)
          ∧ jsonLookup (spanJsonObj s) "name" = some (.str s.name)
          ∧ jsonLookup (spanJsonObj s) "startTime" = some (.str (timeFormat s.startTime))
          ∧ jsonLookup (spanJsonObj s) "endTime" = some (.str (timeFormat s.endTime))
          ∧ jsonLookup (spanJsonObj s) "attributes" = some (attrsToJson s.attributes)
          ∧ (∀ bs, attrsToJson s.attributes = attrsToJson bs → s.attributes = bs) := by
  obtain ⟨w', h1, h2, h3, _, _, _⟩ := exportSpans_ok fd p ctx spans w hopen hok
  refine ⟨w', h1, h2, h3, ?_⟩
  intro s hs
  refine ⟨docOf_eq s (hok s hs), ?_, ?_, ?_, ?_, fun bs => attrsToJson_inj _ bs⟩
  all_goals simp [jsonLookup, spanJsonObj, lookupField]

theorem C1_export_appends_docs_witness :
    (List.lookup 0 (World.mk ["out"] [("out", "")] [(0, ⟨"out", false⟩)] 1).handles
        = some ⟨"out", false⟩)
    ∧ (∀ s ∈ [(⟨"request", 3, 7, [⟨"http.method", .str "GET"⟩]⟩ : Span)], spanTimesOk s = true)
    ∧ ∃ w', ExportSpans (some ⟨0⟩) ⟨false⟩ [⟨"request", 3, 7, [⟨"http.method", .str "GET"⟩]⟩]
          (World.mk ["out"] [("out", "")] [(0, ⟨"out", false⟩)] 1) = .value (.ok (), w')
        ∧ fileContent w' "out"
            = fileContent (World.mk ["out"] [("out", "")] [(0, ⟨"out", false⟩)] 1) "out"
              ++ docsConcat [⟨"request", 3, 7, [⟨"http.method", .str "GET"⟩]⟩] :=
  ⟨by decide, by decide,
   match C1_export_appends_docs 0 "out" ⟨false⟩
       [⟨"request", 3, 7, [⟨"http.method", .str "GET"⟩]⟩]
       (World.mk ["out"] [("out", "")] [(0, ⟨"out", false⟩)] 1) (by decide) (by decide) with
   | ⟨w', h1, h2, _, _⟩ => ⟨w', h1, h2⟩⟩

/-- Claim C2: when a record of the batch fails, `ExportSpans` returns that
first error immediately: the documents of the records before it are already
in the file and stay there (no rollback), and no record after the failing
one is serialized or written (the run's result does not depend on them).
The two failure modes of the model are a serialization failure mid-batch
and a write failure (closed handle), which fails at the first record. -/
theorem C2_export_stops_at_first_error (fd : Nat) (p : String) (ctx : Context)
    (pre : List Span) (bad : Span) (w : World)
    (hopen : List.lookup fd w.handles = some ⟨p, false⟩)
    (hpre : ∀ s ∈ pre, spanTimesOk s = true)
    (hbad : spanTimesOk bad = false) :
    (∃ w', (∀ rest, ExportSpans (some ⟨fd⟩) ctx (pre ++ bad :: rest) w
        = .value (.error (spanMarshalErr bad), w'))
      ∧ fileContent w' p = fileContent w p ++ docsConcat pre
      ∧ (∀ q, q ≠ p → fileContent w' q = fileContent w q))
    ∧ (∀ (w2 : World) s rest, List.lookup fd w2.handles = some ⟨p, true⟩ →
        spanTimesOk s = true →
        ExportSpans (some ⟨fd⟩) ctx (s :: rest) w2 = .value (.error .errClosed, w2)) := by
  constructor
  · obtain ⟨w', h1, h2, h3, _⟩ := exportSpans_err_mid fd p ctx pre bad w hopen hpre hbad
    exact ⟨w', h1, h2, h3⟩
  · intro w2 s rest hclosed hs
    unfold ExportSpans
    rw [marshalIndent_spanToMap s hs]
    simp only []
    simp [fileWrite, hclosed]

theorem C2_export_stops_at_first_error_witness :
    (List.lookup 0 (World.mk ["out"] [("out", "x")] [(0, ⟨"out", false⟩)] 1).handles
        = some ⟨"out", false⟩)
    ∧ (∀ s ∈ ([] : List Span), spanTimesOk s = true)
    ∧ (spanTimesOk ⟨"bad", 0, 253402300800000000000, []⟩ = false)
    ∧ ((∃ w', (∀ rest, ExportSpans (some ⟨0⟩) ⟨false⟩
            ([] ++ (⟨"bad", 0, 253402300800000000000, []⟩ : Span) :: rest)
            (World.mk ["out"] [("out", "x")] [(0, ⟨"out", false⟩)] 1)
          = .value (.error (spanMarshalErr ⟨"bad", 0, 253402300800000000000, []⟩), w'))
        ∧ fileContent w' "out"
            = fileContent (World.mk ["out"] [("out", "x")] [(0, ⟨"out", false⟩)] 1) "out"
              ++ docsConcat []
        ∧ (∀ q, q ≠ "out" →
            fileContent w' q
              = fileContent (World.mk ["out"] [("out", "x")] [(0, ⟨"out", false⟩)] 1) q))
      ∧ (∀ (w2 : World) s rest, List.lookup 0 w2.handles = some ⟨"out", true⟩ →
          spanTimesOk s = true →
          ExportSpans (some ⟨0⟩) ⟨false⟩ (s :: rest) w2 = .value (.error .errClosed, w2))) :=
  ⟨by decide, by decide, by decide,
   C2_export_stops_at_first_error 0 "out" ⟨false⟩ [] ⟨"bad", 0, 253402300800000000000, []⟩
     (World.mk ["out"] [("out", "x")] [(0, ⟨"out", false⟩)] 1)
     (by decide) (by decide) (by decide)⟩

theorem providerShutdown_active_run (fe : FileSpanExporter) (sam : Sampler)
    (res : OtelResource) (buffered : List Span) (ctx : Context) (w : World)
    (flushRes : Except GoError Unit) (w1 : World)
    (closeRes : Except GoError Unit) (w2 : World)
    (hflush : ExportSpans (some fe) ctx buffered w = .value (flushRes, w1))
    (hclose : Shutdown (some fe) ctx w1 = .value (closeRes, w2)) :
    providerShutdown ⟨some fe, sam, res, buffered, false⟩ ctx w
      = .value ((match flushRes with | .error e => .error e | .ok _ => closeRes),
                ⟨some fe, sam, res, [], true⟩, w2) := by
  cases flushRes with
  | error e =>
    show (match ExportSpans (some fe) ctx buffered w with
          | PanicOr.panicked m => PanicOr.panicked m
          | PanicOr.value (fr, w1) =>
            match Shutdown (some fe) ctx w1 with
            | PanicOr.panicked m => PanicOr.panicked m
            | PanicOr.value (cr, w2) =>
              match fr with
              | Except.error e2 =>
                  PanicOr.value
                    (Except.error e2, TracerProvider.mk (some fe) sam res [] true, w2)
              | Except.ok _ =>
                  PanicOr.value (cr, TracerProvider.mk (some fe) sam res [] true, w2))
        = PanicOr.value (Except.error e, TracerProvider.mk (some fe) sam res [] true, w2)
    rw [hflush]
    show (match Shutdown (some fe) ctx w1 with
          | PanicOr.panicked m => PanicOr.panicked m
          | PanicOr.value (cr, w2) =>
              PanicOr.value
                (Except.error e, TracerProvider.mk (some fe) sam res [] true, w2))
        = PanicOr.value (Except.error e, TracerProvider.mk (some fe) sam res [] true, w2)
    rw [hclose]
  | ok u =>
    show (match ExportSpans (some fe) ctx buffered w with
          | PanicOr.panicked m => PanicOr.panicked m
          | PanicOr.value (fr, w1) =>
            match Shutdown (some fe) ctx w1 with
            | PanicOr.panicked m => PanicOr.panicked m
            | PanicOr.value (cr, w2) =>
              match fr with
              | Except.error e2 =>
                  PanicOr.value
                    (Except.error e2, TracerProvider.mk (some fe) sam res [] true, w2)
              | Except.ok _ =>
                  PanicOr.value (cr, TracerProvider.mk (some fe) sam res [] true, w2))
        = PanicOr.value (closeRes, TracerProvider.mk (some fe) sam res [] true, w2)
    rw [hflush]
    show (match Shutdown (some fe) ctx w1 with
          | PanicOr.panicked m => PanicOr.panicked m
          | PanicOr.value (cr, w2) =>
              PanicOr.value (cr, TracerProvider.mk (some fe) sam res [] true, w2))
        = PanicOr.value (closeRes, TracerProvider.mk (some fe) sam res [] true, w2)
    rw [hclose]

theorem runCleanup_of_providerShutdown (tp : TracerProvider) (w : World)
    (e : Except GoError Unit) (tp' : TracerProvider) (w' : World)
    (hps : providerShutdown tp (contextWithCancel Context.background) w
        = .value (e, tp', w')) :
    runCleanup tp w = .value ((), tp', w') := by
  show (match providerShutdown tp (contextWithCancel Context.background) w with
        | PanicOr.panicked m => PanicOr.panicked m
        | PanicOr.value (_e, tp2, w2) => PanicOr.value ((), tp2, w2)) = _
  rw [hps]

/-- Claim C8: once the output handle is closed, no sink operation changes
any file content again: `ExportSpans` leaves the whole state unchanged,
`Shutdown` reports the double-close error and leaves the state unchanged,
and in teardown the pipeline shutdown observes a (double-close or write)
error while the teardown closure ignores it and still returns unit with the
state unchanged. -/
theorem C8_closed_handle_never_written (fd : Nat) (p : String) (ctx : Context) (w : World)
    (hclosed : List.lookup fd w.handles = some ⟨p, true⟩) :
    (∀ spans, ∃ r, ExportSpans (some ⟨fd⟩) ctx spans w = .value (r, w))
    ∧ Shutdown (some ⟨fd⟩) ctx w = .value (.error .errClosed, w)
    ∧ (∀ res buffered, ∃ e tp',
        providerShutdown ⟨some ⟨fd⟩, .alwaysSample, res, buffered, false⟩
            (contextWithCancel Context.background) w = .value (.error e, tp', w)
        ∧ runCleanup ⟨some ⟨fd⟩, .alwaysSample, res, buffered, false⟩ w
            = .value ((), tp', w)) := by
  have hshut : ∀ c : Context, Shutdown (some ⟨fd⟩) c w = .value (.error .errClosed, w) := by
    intro c
    show PanicOr.value (fileClose w fd) = _
    simp [fileClose, hclosed]
  refine ⟨fun spans => exportSpans_closed fd p ctx spans w hclosed, hshut ctx, ?_⟩
  intro res buffered
  obtain ⟨r, hr⟩ :=
    exportSpans_closed fd p (contextWithCancel Context.background) buffered w hclosed
  cases r with
  | error e =>
    have hps := providerShutdown_active_run ⟨fd⟩ .alwaysSample res buffered
      (contextWithCancel Context.background) w (.error e) w (.error .errClosed) w hr
      (hshut (contextWithCancel Context.background))
    exact ⟨e, ⟨some ⟨fd⟩, .alwaysSample, res, [], true⟩, hps,
      runCleanup_of_providerShutdown _ _ _ _ _ hps⟩
  | ok u =>
    have hps := providerShutdown_active_run ⟨fd⟩ .alwaysSample res buffered
      (contextWithCancel Context.background) w (.ok u) w (.error .errClosed) w hr
      (hshut (contextWithCancel Context.background))
    exact ⟨.errClosed, ⟨some ⟨fd⟩, .alwaysSample, res, [], true⟩, hps,
      runCleanup_of_providerShutdown _ _ _ _ _ hps⟩

theorem C8_closed_handle_never_written_witness :
    (List.lookup 0 (World.mk ["out"] [("out", "x")] [(0, ⟨"out", true⟩)] 1).handles
        = some ⟨"out", true⟩)
    ∧ ((∀ spans, ∃ r, ExportSpans (some ⟨0⟩) ⟨false⟩ spans
          (World.mk ["out"] [("out", "x")] [(0, ⟨"out", true⟩)] 1)
          = .value (r, World.mk ["out"] [("out", "x")] [(0, ⟨"out", true⟩)] 1))
      ∧ Shutdown (some ⟨0⟩) ⟨false⟩ (World.mk ["out"] [("out", "x")] [(0, ⟨"out", true⟩)] 1)
          = .value (.error .errClosed, World.mk ["out"] [("out", "x")] [(0, ⟨"out", true⟩)] 1)
      ∧ (∀ res buffered, ∃ e tp',
          providerShutdown ⟨some ⟨0⟩, .alwaysSample, res, buffered, false⟩
              (contextWithCancel Context.background)
              (World.mk ["out"] [("out", "x")] [(0, ⟨"out", true⟩)] 1)
            = .value (.error e, tp', World.mk ["out"] [("out", "x")] [(0, ⟨"out", true⟩)] 1)
          ∧ runCleanup ⟨some ⟨0⟩, .alwaysSample, res, buffered, false⟩
              (World.mk ["out"] [("out", "x")] [(0, ⟨"out", true⟩)] 1)
            = .value ((), tp', World.mk ["out"] [("out", "x")] [(0, ⟨"out", true⟩)] 1))) :=
  ⟨by decide,
   C8_closed_handle_never_written 0 "out" ⟨false⟩
     (World.mk ["out"] [("out", "x")] [(0, ⟨"out", true⟩)] 1) (by decide)⟩

/-- Claim C9: the teardown closure shuts the captured pipeline down within a
freshly created, not-yet-cancelled cancellable context and surfaces no
failure to its caller (the provider shutdown's error is dropped and the
closure returns unit); when the sink is a live exporter over an open handle
and the buffered spans are marshalable, the shutdown flushes the buffered
spans to the output file and closes the sink's handle. -/
theorem C9_cleanup_flushes_and_discards_errors (tp : TracerProvider) (w : World) :
    runCleanup tp w
      = (match providerShutdown tp (contextWithCancel Context.background) w with
         | PanicOr.panicked m => PanicOr.panicked m
         | PanicOr.value (_e, tp', w') => PanicOr.value ((), tp', w'))
    ∧ (contextWithCancel Context.background).cancelled = false
    ∧ (∀ fd p res buffered,
        tp = ⟨some ⟨fd⟩, .alwaysSample, res, buffered, false⟩ →
        List.lookup fd w.handles = some ⟨p, false⟩ →
        (∀ s ∈ buffered, spanTimesOk s = true) →
        ∃ w', runCleanup tp w
            = .value ((), ⟨some ⟨fd⟩, .alwaysSample, res, [], true⟩, w')
          ∧ fileContent w' p = fileContent w p ++ docsConcat buffered
          ∧ List.lookup fd w'.handles = some ⟨p, true⟩) := by
  refine ⟨rfl, rfl, ?_⟩
  intro fd p res buffered htp hopen hok
  subst htp
  obtain ⟨w1, hrun, hcontent, _, hhandles, _, _⟩ :=
    exportSpans_ok fd p (contextWithCancel Context.background) buffered w hopen hok
  have hopen1 : List.lookup fd w1.handles = some ⟨p, false⟩ := by rw [hhandles]; exact hopen
  have hcloseF : fileClose w1 fd
      = (.ok (), { w1 with handles := setAssoc w1.handles fd ⟨p, true⟩ }) := by
    simp [fileClose, hopen1]
  have hclose : Shutdown (some ⟨fd⟩) (contextWithCancel Context.background) w1
      = .value (.ok (), { w1 with handles := setAssoc w1.handles fd ⟨p, true⟩ }) := by
    show PanicOr.value (fileClose w1 fd) = _
    rw [hcloseF]
  have hps := providerShutdown_active_run ⟨fd⟩ .alwaysSample res buffered
    (contextWithCancel Context.background) w (.ok ()) w1 (.ok ())
    { w1 with handles := setAssoc w1.handles fd ⟨p, true⟩ } hrun hclose
  refine ⟨{ w1 with handles := setAssoc w1.handles fd ⟨p, true⟩ },
    runCleanup_of_providerShutdown _ _ _ _ _ hps, ?_, lookup_setAssoc_self _ _ _⟩
  show (List.lookup p w1.files).getD "" = _
  exact hcontent

theorem C9_cleanup_flushes_and_discards_errors_witness :
    ((⟨some ⟨0⟩, .alwaysSample, ⟨semconvSchemaURL, []⟩, [], false⟩ : TracerProvider)
        = ⟨some ⟨0⟩, .alwaysSample, ⟨semconvSchemaURL, []⟩, [], false⟩)
    ∧ (List.lookup 0 (World.mk ["out"] [("out", "x")] [(0, ⟨"out", false⟩)] 1).handles
        = some ⟨"out", false⟩)
    ∧ (∀ s ∈ ([] : List Span), spanTimesOk s = true)
    ∧ ∃ w', runCleanup ⟨some ⟨0⟩, .alwaysSample, ⟨semconvSchemaURL, []⟩, [], false⟩
          (World.mk ["out"] [("out", "x")] [(0, ⟨"out", false⟩)] 1)
        = .value ((), ⟨some ⟨0⟩, .alwaysSample, ⟨semconvSchemaURL, []⟩, [], true⟩, w')
      ∧ fileContent w' "out"
          = fileContent (World.mk ["out"] [("out", "x")] [(0, ⟨"out", false⟩)] 1) "out"
            ++ docsConcat []
      ∧ List.lookup 0 w'.handles = some ⟨"out", true⟩ :=
  ⟨rfl, by decide, by decide,
   (C9_cleanup_flushes_and_discards_errors
       ⟨some ⟨0⟩, .alwaysSample, ⟨semconvSchemaURL, []⟩, [], false⟩
       (World.mk ["out"] [("out", "x")] [(0, ⟨"out", false⟩)] 1)).2.2
     0 "out" ⟨semconvSchemaURL, []⟩ [] rfl (by decide) (by decide)⟩
